import Mathlib

/-!
Shallow embedding of src/tools/colorize.py.

The script recolors sprites: it reads a JSON manifest, loads a base PNG and
mask PNGs through the vips image library, blends a color onto the base under
each mask, and saves one output per manifest entry.  Pixels are modelled with
exact rational arithmetic (pyvips promotes uchar pixels to double during
arithmetic).  A raster is a pixel grid together with the vips metadata the
script inspects: the interpretation tag, the alpha flag, and whether an icc
profile is attached.  Binary raster arithmetic is modelled pointwise, i.e. in
the regime where the operands have matching dimensions; the script itself
never checks dimensions.
-/

/-- One RGBA pixel.  Freshly loaded images carry raw channel values in
the byte range 0 to 255. -/
structure Pixel where
  r : ℚ
  g : ℚ
  b : ℚ
  a : ℚ
  deriving DecidableEq, Repr

/-- The vips interpretation tag of an image; the script only distinguishes
srgb from everything else (colorize.py line 69). -/
inductive Interp where
  | srgb
  | other (tag : String)
  deriving DecidableEq, Repr

/-- A vips image: dimensions, the metadata the script inspects, and the
pixel grid. -/
structure VipsImage where
  width : ℕ
  height : ℕ
  interp : Interp
  hasalpha : Bool
  hasIccProfile : Bool
  pix : ℕ → ℕ → Pixel

/-- Divide every channel of a pixel by a constant. -/
def pixDivC (p : Pixel) (c : ℚ) : Pixel :=
  ⟨p.r / c, p.g / c, p.b / c, p.a / c⟩

/-- Subtract every channel of a pixel from a constant (models the vips
expression 1.0 - mask). -/
def pixRSubC (c : ℚ) (p : Pixel) : Pixel :=
  ⟨c - p.r, c - p.g, c - p.b, c - p.a⟩

/-- Channelwise product of two pixels (vips multiplies two equal-band images
band by band). -/
def pixMul (p q : Pixel) : Pixel :=
  ⟨p.r * q.r, p.g * q.g, p.b * q.b, p.a * q.a⟩

/-- Channelwise sum of two pixels. -/
def pixAdd (p q : Pixel) : Pixel :=
  ⟨p.r + q.r, p.g + q.g, p.b + q.b, p.a + q.a⟩

/-- Multiply a pixel by a list of per-band constants (vips image * list
broadcasting for a 4-band image; after color normalization the list has
exactly 4 entries). -/
def pixMulList (p : Pixel) (col : List ℚ) : Pixel :=
  ⟨p.r * col.getD 0 0, p.g * col.getD 1 0, p.b * col.getD 2 0, p.a * col.getD 3 0⟩

/-- Apply a pixel function at every coordinate. -/
def mapPix (f : Pixel → Pixel) (img : VipsImage) : VipsImage :=
  { img with pix := fun x y => f (img.pix x y) }

/-- Combine two images pointwise (size-matched regime of vips binary
arithmetic). -/
def zipPix (f : Pixel → Pixel → Pixel) (A B : VipsImage) : VipsImage :=
  { A with pix := fun x y => f (A.pix x y) (B.pix x y) }

/-- vips image / constant. -/
def divScalar (img : VipsImage) (c : ℚ) : VipsImage :=
  mapPix (fun p => pixDivC p c) img

/-- vips constant - image. -/
def rsubScalar (c : ℚ) (img : VipsImage) : VipsImage :=
  mapPix (pixRSubC c) img

/-- vips image * image (equal sizes and bands). -/
def mulImages (A B : VipsImage) : VipsImage :=
  zipPix pixMul A B

/-- vips image + image (equal sizes and bands). -/
def addImages (A B : VipsImage) : VipsImage :=
  zipPix pixAdd A B

/-- vips image * list of per-band constants. -/
def mulList (img : VipsImage) (col : List ℚ) : VipsImage :=
  mapPix (fun p => pixMulList p col) img

/-- colorize.py lines 99-101: a 3-component color gets 255 appended, then
every component is divided by 255.0. -/
def normalizeColor (col : List ℚ) : List ℚ :=
  let col2 := if col.length = 3 then col ++ [255] else col
  col2.map (fun c => c / 255)

/-- colorize.py lines 98-103, the body of the per-layer loop for one
(mask, col) pair: col is normalized, the mask raster is divided by 255.0,
and the image becomes (image * (1.0 - mask)) + image * mask * col. -/
def layerStep (image maskImg : VipsImage) (col : List ℚ) : VipsImage :=
  let c := normalizeColor col
  let mask := divScalar maskImg 255
  addImages (mulImages image (rsubScalar 1 mask)) (mulList (mulImages image mask) c)

/-- The whole per-entry compositing loop of colorize.py line 98: fold the
layer step over the ordered (mask, color) list, starting from the base. -/
def colorizeLayers (image : VipsImage) (layers : List (VipsImage × List ℚ)) : VipsImage :=
  layers.foldl (fun img ml => layerStep img ml.1 ml.2) image

/-- A parsed JSON document, as handed to read_json by json.load. -/
inductive Json where
  | null
  | bool (b : Bool)
  | num (q : ℚ)
  | str (s : String)
  | arr (items : List Json)
  | obj (fields : List (String × Json))

/-- colorize.py lines 47-48: after json.load succeeds, a non-list top-level
value is wrapped into a one-element list; a list is returned as-is. -/
def read_json (entries : Json) : List Json :=
  match entries with
  | .arr items => items
  | v => [v]

/-- A one-pixel-repeated image, used for concrete test inputs. -/
def constImage (p : Pixel) : VipsImage :=
  { width := 1, height := 1, interp := .srgb, hasalpha := true,
    hasIccProfile := false, pix := fun _ _ => p }

/-- C8: compositing with an empty layers sequence returns the base raster
unchanged. -/
theorem composite_empty_identity (I : VipsImage) : colorizeLayers I [] = I := rfl

/-- C9: a 3-component color has alpha 255 appended before use, and in both
the 3- and the 4-component case every component is divided by 255 before
blending. -/
theorem color_components_normalized (c0 c1 c2 c3 : ℚ) :
    normalizeColor [c0, c1, c2] = [c0 / 255, c1 / 255, c2 / 255, 1]
      ∧ normalizeColor [c0, c1, c2, c3] = [c0 / 255, c1 / 255, c2 / 255, c3 / 255] := by
  constructor <;> norm_num [normalizeColor]

/-- C4: a manifest whose top-level value is not an array is wrapped into a
one-element sequence, identical to the one-element array manifest; a
top-level array is used as-is. -/
theorem manifest_single_object_wrapped (v : Json) (h : ∀ items, v ≠ Json.arr items) :
    read_json v = [v]
      ∧ read_json v = read_json (Json.arr [v])
      ∧ ∀ items, read_json (Json.arr items) = items := by
  refine ⟨?_, ?_, fun items => rfl⟩ <;>
    cases v <;> first | rfl | exact absurd rfl (h _)

/-- Witness for C4 at a concrete single-object manifest. -/
theorem manifest_single_object_wrapped_witness :
    read_json (Json.obj []) = [Json.obj []] :=
  (manifest_single_object_wrapped (Json.obj []) (fun _ h => Json.noConfusion h)).1

/-- Shared unfolding of the layer step at one coordinate, channel r. -/
theorem layerStep_pix_r (I M : VipsImage) (col : List ℚ) (x y : ℕ) :
    ((layerStep I M col).pix x y).r =
      (I.pix x y).r * (1 - (M.pix x y).r / 255)
        + (I.pix x y).r * ((M.pix x y).r / 255) * (normalizeColor col).getD 0 0 := by
  simp [layerStep, addImages, mulImages, mulList, divScalar, rsubScalar, mapPix, zipPix,
    pixAdd, pixMul, pixMulList, pixRSubC, pixDivC]

/-- Shared unfolding of the layer step at one coordinate, channel g. -/
theorem layerStep_pix_g (I M : VipsImage) (col : List ℚ) (x y : ℕ) :
    ((layerStep I M col).pix x y).g =
      (I.pix x y).g * (1 - (M.pix x y).g / 255)
        + (I.pix x y).g * ((M.pix x y).g / 255) * (normalizeColor col).getD 1 0 := by
  simp [layerStep, addImages, mulImages, mulList, divScalar, rsubScalar, mapPix, zipPix,
    pixAdd, pixMul, pixMulList, pixRSubC, pixDivC]

/-- Shared unfolding of the layer step at one coordinate, channel b. -/
theorem layerStep_pix_b (I M : VipsImage) (col : List ℚ) (x y : ℕ) :
    ((layerStep I M col).pix x y).b =
      (I.pix x y).b * (1 - (M.pix x y).b / 255)
        + (I.pix x y).b * ((M.pix x y).b / 255) * (normalizeColor col).getD 2 0 := by
  simp [layerStep, addImages, mulImages, mulList, divScalar, rsubScalar, mapPix, zipPix,
    pixAdd, pixMul, pixMulList, pixRSubC, pixDivC]

/-- Shared unfolding of the layer step at one coordinate, channel a. -/
theorem layerStep_pix_a (I M : VipsImage) (col : List ℚ) (x y : ℕ) :
    ((layerStep I M col).pix x y).a =
      (I.pix x y).a * (1 - (M.pix x y).a / 255)
        + (I.pix x y).a * ((M.pix x y).a / 255) * (normalizeColor col).getD 3 0 := by
  simp [layerStep, addImages, mulImages, mulList, divScalar, rsubScalar, mapPix, zipPix,
    pixAdd, pixMul, pixMulList, pixRSubC, pixDivC]

/-- C1: each layer step computes, per pixel and per channel, the blend
I * (1 - w) + I * w * c where w is the mask channel value over 255 and c the
normalized color component; at full mask weight 255 the result is I * c per
channel (multiplicative tint, not replacement); the literal example with base
channel values (0.784, 0.392, 0.196, 1.0) and color (255,0,0,255), i.e.
normalized (1,0,0,1), yields (0.784, 0, 0, 1.0); and a pixel that is zero in
every channel is unchanged by any mask. -/
theorem layer_blend_is_multiplicative_tint (I M : VipsImage) (col : List ℚ) (x y : ℕ) :
    (((layerStep I M col).pix x y).r =
        (I.pix x y).r * (1 - (M.pix x y).r / 255)
          + (I.pix x y).r * ((M.pix x y).r / 255) * (normalizeColor col).getD 0 0
      ∧ ((layerStep I M col).pix x y).g =
        (I.pix x y).g * (1 - (M.pix x y).g / 255)
          + (I.pix x y).g * ((M.pix x y).g / 255) * (normalizeColor col).getD 1 0
      ∧ ((layerStep I M col).pix x y).b =
        (I.pix x y).b * (1 - (M.pix x y).b / 255)
          + (I.pix x y).b * ((M.pix x y).b / 255) * (normalizeColor col).getD 2 0
      ∧ ((layerStep I M col).pix x y).a =
        (I.pix x y).a * (1 - (M.pix x y).a / 255)
          + (I.pix x y).a * ((M.pix x y).a / 255) * (normalizeColor col).getD 3 0)
    ∧ (M.pix x y = ⟨255, 255, 255, 255⟩ →
        (layerStep I M col).pix x y =
          ⟨(I.pix x y).r * (normalizeColor col).getD 0 0,
           (I.pix x y).g * (normalizeColor col).getD 1 0,
           (I.pix x y).b * (normalizeColor col).getD 2 0,
           (I.pix x y).a * (normalizeColor col).getD 3 0⟩)
    ∧ (I.pix x y = ⟨0, 0, 0, 0⟩ → (layerStep I M col).pix x y = ⟨0, 0, 0, 0⟩)
    ∧ (layerStep (constImage ⟨784/1000, 392/1000, 196/1000, 1⟩)
          (constImage ⟨255, 255, 255, 255⟩) [255, 0, 0, 255]).pix 0 0
        = ⟨784/1000, 0, 0, 1⟩ := by
  refine ⟨⟨layerStep_pix_r I M col x y, layerStep_pix_g I M col x y,
    layerStep_pix_b I M col x y, layerStep_pix_a I M col x y⟩, ?_, ?_, ?_⟩
  · intro hM
    have hr := layerStep_pix_r I M col x y
    have hg := layerStep_pix_g I M col x y
    have hb := layerStep_pix_b I M col x y
    have ha := layerStep_pix_a I M col x y
    rw [hM] at hr hg hb ha
    cases hp : (layerStep I M col).pix x y
    simp_all [Pixel.mk.injEq]
  · intro hI
    have hr := layerStep_pix_r I M col x y
    have hg := layerStep_pix_g I M col x y
    have hb := layerStep_pix_b I M col x y
    have ha := layerStep_pix_a I M col x y
    rw [hI] at hr hg hb ha
    cases hp : (layerStep I M col).pix x y
    simp_all [Pixel.mk.injEq]
  · simp [layerStep, addImages, mulImages, mulList, divScalar, rsubScalar, mapPix, zipPix,
      pixAdd, pixMul, pixMulList, pixRSubC, pixDivC, constImage, normalizeColor, Pixel.mk.injEq]

/-- Witness for C1: at base pixel (200,100,50,255), an all-255 mask and
color (255,0,0,255), the full-weight branch gives the multiplicative tint
(200, 0, 0, 255). -/
theorem layer_blend_is_multiplicative_tint_witness :
    (layerStep (constImage ⟨200, 100, 50, 255⟩) (constImage ⟨255, 255, 255, 255⟩)
        [255, 0, 0, 255]).pix 0 0 = ⟨200, 0, 0, 255⟩ := by
  have h := (layer_blend_is_multiplicative_tint (constImage ⟨200, 100, 50, 255⟩)
      (constImage ⟨255, 255, 255, 255⟩) [255, 0, 0, 255] 0 0).2.1 rfl
  rw [h]
  norm_num [constImage, normalizeColor, Pixel.mk.injEq]

/-- Modelled from the spec, for comparison only: the layer step as claim C2
reads it, with the mask collapsed to one scalar per-pixel weight w that
multiplies every channel of the image (spec section 4.3: normalize mask M to
weight w = alpha or luminance over 255). -/
def specScalarStep (p : Pixel) (w : ℚ) (col : List ℚ) : Pixel :=
  ⟨p.r * (1 - w) + p.r * w * col.getD 0 0,
   p.g * (1 - w) + p.g * w * col.getD 1 0,
   p.b * (1 - w) + p.b * w * col.getD 2 0,
   p.a * (1 - w) + p.a * w * col.getD 3 0⟩

/-- C2 counterexample: at base pixel (100,100,100,255), mask pixel
(255,0,0,255) and color (0,255,0,255), no single scalar weight w - in
particular neither the mask alpha over 255 nor any luminance over 255 -
reproduces the layer step: the code weights each channel by the mask channel
of the same index, so the red channel needs w = 1 while the blue channel
needs w = 0. -/
theorem mask_weight_not_a_single_scalar :
    ¬ ∃ w : ℚ,
      (layerStep (constImage ⟨100, 100, 100, 255⟩) (constImage ⟨255, 0, 0, 255⟩)
          [0, 255, 0, 255]).pix 0 0
        = specScalarStep ⟨100, 100, 100, 255⟩ w (normalizeColor [0, 255, 0, 255]) := by
  rintro ⟨w, h⟩
  have hr := congrArg Pixel.r h
  have hb := congrArg Pixel.b h
  norm_num [layerStep, addImages, mulImages, mulList, divScalar, rsubScalar, mapPix, zipPix,
    pixAdd, pixMul, pixMulList, pixRSubC, pixDivC, constImage, normalizeColor,
    specScalarStep] at hr hb
  rw [hb] at hr
  norm_num at hr

/-- C2 amended: each layer divides the whole mask raster channelwise by 255,
so channel k of the image is blended with the weight given by mask channel k
over 255 (per-channel weights); this coincides with a single scalar weight
exactly when the mask pixel has all channels equal, e.g. a gray opaque
mask. -/
theorem mask_normalization_per_channel (I M : VipsImage) (col : List ℚ) (x y : ℕ) :
    (((layerStep I M col).pix x y).r =
        (I.pix x y).r * (1 - (M.pix x y).r / 255)
          + (I.pix x y).r * ((M.pix x y).r / 255) * (normalizeColor col).getD 0 0
      ∧ ((layerStep I M col).pix x y).g =
        (I.pix x y).g * (1 - (M.pix x y).g / 255)
          + (I.pix x y).g * ((M.pix x y).g / 255) * (normalizeColor col).getD 1 0
      ∧ ((layerStep I M col).pix x y).b =
        (I.pix x y).b * (1 - (M.pix x y).b / 255)
          + (I.pix x y).b * ((M.pix x y).b / 255) * (normalizeColor col).getD 2 0
      ∧ ((layerStep I M col).pix x y).a =
        (I.pix x y).a * (1 - (M.pix x y).a / 255)
          + (I.pix x y).a * ((M.pix x y).a / 255) * (normalizeColor col).getD 3 0)
    ∧ ((M.pix x y).r = (M.pix x y).g ∧ (M.pix x y).g = (M.pix x y).b
          ∧ (M.pix x y).b = (M.pix x y).a →
        (layerStep I M col).pix x y =
          specScalarStep (I.pix x y) ((M.pix x y).r / 255) (normalizeColor col)) := by
  refine ⟨⟨layerStep_pix_r I M col x y, layerStep_pix_g I M col x y,
    layerStep_pix_b I M col x y, layerStep_pix_a I M col x y⟩, ?_⟩
  rintro ⟨h1, h2, h3⟩
  have hr := layerStep_pix_r I M col x y
  have hg := layerStep_pix_g I M col x y
  have hb := layerStep_pix_b I M col x y
  have ha := layerStep_pix_a I M col x y
  cases hp : (layerStep I M col).pix x y
  rw [hp] at hr hg hb ha
  simp_all [specScalarStep, Pixel.mk.injEq]

/-- Witness for C2 amended: with the gray opaque mask pixel (51,51,51,51)
the layer step coincides with the scalar-weight blend at w = 51 / 255. -/
theorem mask_normalization_per_channel_witness :
    (layerStep (constImage ⟨10, 20, 30, 40⟩) (constImage ⟨51, 51, 51, 51⟩)
        [255, 255, 255, 255]).pix 0 0
      = specScalarStep ⟨10, 20, 30, 40⟩ (51 / 255) (normalizeColor [255, 255, 255, 255]) :=
  (mask_normalization_per_channel (constImage ⟨10, 20, 30, 40⟩)
      (constImage ⟨51, 51, 51, 51⟩) [255, 255, 255, 255] 0 0).2 ⟨rfl, rfl, rfl⟩

/-- C10: the color alpha component participates in the blend exactly like the
RGB channels: at a full mask pixel (all channels 255) and a 4-component color
with alpha component a, the output alpha is the base alpha times a / 255, and
for a < 255 and positive base alpha the output is strictly more transparent
than the base. -/
theorem color_alpha_scales_output_alpha (I M : VipsImage) (c0 c1 c2 a : ℚ) (x y : ℕ)
    (hM : M.pix x y = ⟨255, 255, 255, 255⟩) :
    ((layerStep I M [c0, c1, c2, a]).pix x y).a = (I.pix x y).a * (a / 255)
      ∧ (a < 255 → 0 < (I.pix x y).a →
          ((layerStep I M [c0, c1, c2, a]).pix x y).a < (I.pix x y).a) := by
  have ha := layerStep_pix_a I M [c0, c1, c2, a] x y
  rw [hM] at ha
  norm_num [normalizeColor] at ha
  refine ⟨ha, fun hlt hpos => ?_⟩
  rw [ha]
  have hw : a / 255 < 1 := by
    rw [div_lt_one (by norm_num : (0:ℚ) < 255)]
    exact hlt
  calc (I.pix x y).a * (a / 255) < (I.pix x y).a * 1 :=
        mul_lt_mul_of_pos_left hw hpos
    _ = (I.pix x y).a := mul_one _

/-- Witness for C10: base alpha 100 with color alpha 51 at a full mask pixel
gives output alpha 100 * (51 / 255) = 20, strictly below 100. -/
theorem color_alpha_scales_output_alpha_witness :
    ((layerStep (constImage ⟨10, 20, 30, 100⟩) (constImage ⟨255, 255, 255, 255⟩)
        [255, 255, 255, 51]).pix 0 0).a = 100 * (51 / 255)
      ∧ ((layerStep (constImage ⟨10, 20, 30, 100⟩) (constImage ⟨255, 255, 255, 255⟩)
        [255, 255, 255, 51]).pix 0 0).a < 100 := by
  have h := color_alpha_scales_output_alpha (constImage ⟨10, 20, 30, 100⟩)
      (constImage ⟨255, 255, 255, 255⟩) 255 255 255 51 0 0 rfl
  exact ⟨h.1, h.2 (by norm_num) (by norm_num [constImage])⟩

/-- What pngload finds at a path: the file may be absent, not a decodable
PNG (pyvips raises its own error in both cases), carry metadata whose bytes
trip a UnicodeDecodeError in pyvips, or decode to an image; iccTransformFails
records whether an icc transform on that image would raise. -/
inductive FileContent where
  | missing (libMessage : String)
  | invalid (libMessage : String)
  | badMetadata
  | png (image : VipsImage) (iccTransformFails : Bool)

/-- colorize.py lines 31-34 and 59-68: the single structured exception type
of the script, raised with either the pyvips load failure or the
UnicodeDecodeError wording. -/
inductive ColorizingException where
  | vipsLoad (path : String) (libMessage : String)
  | unicodeDecode (path : String)
  deriving DecidableEq, Repr

/-- The message each raise statement formats (colorize.py lines 62-68). -/
def ColorizingException.message : ColorizingException → String
  | .vipsLoad path libMessage => "Cannot load " ++ path ++ (": " ++ libMessage)
  | .unicodeDecode path =>
      "Cannot load " ++ path
        ++ (" with UnicodeDecodeError, please report your setup at "
            ++ "https://github.com/libvips/pyvips/issues/80")

/-- A line printed by load_image instead of raising (colorize.py
lines 77-80). -/
inductive Warning where
  | iccTransformFailed (path : String)
  deriving DecidableEq, Repr

/-- vips colourspace to srgb: retags the image; the colorimetric pixel
conversion happens inside the codec and is not inspected by the script. -/
def colourspaceSrgb (image : VipsImage) : VipsImage :=
  { image with interp := .srgb }

/-- vips addalpha: appends a fully opaque alpha band (a constant band join;
it does not fail for a decoded image). -/
def addalpha (image : VipsImage) : VipsImage :=
  { image with hasalpha := true, pix := fun x y => { image.pix x y with a := 255 } }

/-- vips icc_transform to srgb on success: the profile is consumed and the
image is in the reference space afterwards. -/
def iccTransformSrgb (image : VipsImage) : VipsImage :=
  { image with hasIccProfile := false, interp := .srgb }

/-- colorize.py lines 69-70: convert to srgb when tagged otherwise. -/
def srgbStep (image : VipsImage) : VipsImage :=
  if image.interp ≠ Interp.srgb then colourspaceSrgb image else image

/-- colorize.py lines 73-74: append an opaque alpha band when missing. -/
def alphaStep (image : VipsImage) : VipsImage :=
  if ¬ image.hasalpha then addalpha image else image

/-- colorize.py lines 53-82: load_image.  pngload failures become the
structured ColorizingException; then the srgb and alpha steps run; then, if
icc profile data is attached, the transform is attempted inside the
try block, and on a vips error the exception handler prints a line and the
function returns the image held by the local variable, i.e. the
untransformed raster. -/
def load_image (content : FileContent) (png_path : String) :
    Except ColorizingException (VipsImage × List Warning) :=
  match content with
  | .missing m => .error (.vipsLoad png_path m)
  | .invalid m => .error (.vipsLoad png_path m)
  | .badMetadata => .error (.unicodeDecode png_path)
  | .png image iccFails =>
      let image1 := alphaStep (srgbStep image)
      if image1.hasIccProfile then
        if iccFails then .ok (image1, [.iccTransformFailed png_path])
        else .ok (iccTransformSrgb image1, [])
      else .ok (image1, [])

/-- The srgb step always lands on the srgb tag. -/
theorem srgbStep_interp (image : VipsImage) : (srgbStep image).interp = Interp.srgb := by
  by_cases h : image.interp = Interp.srgb <;> simp [srgbStep, h, colourspaceSrgb]

/-- The srgb step does not touch the alpha flag. -/
theorem srgbStep_hasalpha (image : VipsImage) :
    (srgbStep image).hasalpha = image.hasalpha := by
  by_cases h : image.interp = Interp.srgb <;> simp [srgbStep, h, colourspaceSrgb]

/-- The srgb step does not touch the icc profile flag. -/
theorem srgbStep_hasIccProfile (image : VipsImage) :
    (srgbStep image).hasIccProfile = image.hasIccProfile := by
  by_cases h : image.interp = Interp.srgb <;> simp [srgbStep, h, colourspaceSrgb]

/-- The alpha step always lands on an image with alpha. -/
theorem alphaStep_hasalpha (image : VipsImage) : (alphaStep image).hasalpha = true := by
  by_cases h : image.hasalpha = true <;> simp [alphaStep, h, addalpha]

/-- The alpha step does not touch the interpretation tag. -/
theorem alphaStep_interp (image : VipsImage) :
    (alphaStep image).interp = image.interp := by
  by_cases h : image.hasalpha = true <;> simp [alphaStep, h, addalpha]

/-- The alpha step does not touch the icc profile flag. -/
theorem alphaStep_hasIccProfile (image : VipsImage) :
    (alphaStep image).hasIccProfile = image.hasIccProfile := by
  by_cases h : image.hasalpha = true <;> simp [alphaStep, h, addalpha]

/-- C5: for a missing file, a file that is not a valid PNG, and metadata that
cannot be decoded, load_image fails with the structured ColorizingException
instead of crashing, and in each case the message contains the exact
requested path. -/
theorem load_error_is_structured_and_names_path (png_path m : String) :
    (∃ e, load_image (FileContent.missing m) png_path = Except.error e
        ∧ ∃ pre post, e.message = pre ++ png_path ++ post)
      ∧ (∃ e, load_image (FileContent.invalid m) png_path = Except.error e
        ∧ ∃ pre post, e.message = pre ++ png_path ++ post)
      ∧ (∃ e, load_image FileContent.badMetadata png_path = Except.error e
        ∧ ∃ pre post, e.message = pre ++ png_path ++ post) :=
  ⟨⟨.vipsLoad png_path m, rfl, "Cannot load ", ": " ++ m, rfl⟩,
   ⟨.vipsLoad png_path m, rfl, "Cannot load ", ": " ++ m, rfl⟩,
   ⟨.unicodeDecode png_path, rfl, "Cannot load ",
    " with UnicodeDecodeError, please report your setup at "
      ++ "https://github.com/libvips/pyvips/issues/80", rfl⟩⟩

/-- C6: when the loaded image carries icc profile data and the transform
fails, the failure is non-fatal: load_image succeeds, returns the
untransformed (srgb-tagged, alpha-extended) raster, and a warning line is
printed. -/
theorem icc_transform_failure_nonfatal (image : VipsImage) (png_path : String)
    (h : (alphaStep (srgbStep image)).hasIccProfile = true) :
    load_image (FileContent.png image true) png_path
      = Except.ok (alphaStep (srgbStep image), [Warning.iccTransformFailed png_path]) := by
  simp [load_image, h]

/-- A concrete image with attached icc profile data. -/
def sampleIccImage : VipsImage :=
  { width := 2, height := 2, interp := .srgb, hasalpha := true,
    hasIccProfile := true, pix := fun _ _ => ⟨1, 2, 3, 255⟩ }

/-- Witness for C6 at a concrete image whose icc transform fails. -/
theorem icc_transform_failure_nonfatal_witness :
    load_image (FileContent.png sampleIccImage true) "base.png"
      = Except.ok (alphaStep (srgbStep sampleIccImage),
          [Warning.iccTransformFailed "base.png"]) :=
  icc_transform_failure_nonfatal sampleIccImage "base.png" rfl

/-- C7: every raster load_image returns has an alpha band and the srgb
interpretation tag; and when it returns without a warning, no icc profile
data is left unapplied on the result. -/
theorem loaded_raster_invariants (content : FileContent) (png_path : String)
    (image : VipsImage) (warnings : List Warning)
    (h : load_image content png_path = Except.ok (image, warnings)) :
    image.hasalpha = true ∧ image.interp = Interp.srgb
      ∧ (warnings = [] → image.hasIccProfile = false) := by
  cases content with
  | missing m => exact absurd h (by simp [load_image])
  | invalid m => exact absurd h (by simp [load_image])
  | badMetadata => exact absurd h (by simp [load_image])
  | png img iccFails =>
      have halpha : (alphaStep (srgbStep img)).hasalpha = true :=
        alphaStep_hasalpha (srgbStep img)
      have hinterp : (alphaStep (srgbStep img)).interp = Interp.srgb := by
        rw [alphaStep_interp, srgbStep_interp]
      by_cases hicc : (alphaStep (srgbStep img)).hasIccProfile = true
      · cases iccFails with
        | true =>
            simp [load_image, hicc] at h
            obtain ⟨h1, h2⟩ := h
            subst h1
            refine ⟨halpha, hinterp, fun hw => ?_⟩
            rw [← h2] at hw
            exact absurd hw (by simp)
        | false =>
            simp [load_image, hicc] at h
            obtain ⟨h1, h2⟩ := h
            subst h1
            exact ⟨halpha, rfl, fun _ => rfl⟩
      · simp [load_image, hicc] at h
        obtain ⟨h1, h2⟩ := h
        subst h1
        refine ⟨halpha, hinterp, fun _ => ?_⟩
        simpa using hicc

/-- A concrete image lacking an alpha band and carrying no icc profile. -/
def samplePlainImage : VipsImage :=
  { width := 2, height := 2, interp := .other "rgb16", hasalpha := false,
    hasIccProfile := false, pix := fun _ _ => ⟨7, 8, 9, 0⟩ }

/-- Witness for C7 at a concrete alphaless, differently tagged image. -/
theorem loaded_raster_invariants_witness :
    (alphaStep (srgbStep samplePlainImage)).hasalpha = true
      ∧ (alphaStep (srgbStep samplePlainImage)).interp = Interp.srgb
      ∧ (([] : List Warning) = [] →
          (alphaStep (srgbStep samplePlainImage)).hasIccProfile = false) :=
  loaded_raster_invariants (FileContent.png samplePlainImage false) "base.png"
    (alphaStep (srgbStep samplePlainImage)) [] rfl
